import Mathlib

/-
  Verification development for the OpenMetricsClient metrics library.

  The TypeScript sources are shallowly embedded in Lean:
  * JavaScript IEEE-754 numbers are modelled by `JSNumber`: a finite value is
    carried as an exact rational, plus the three non-finite values NaN,
    +Infinity and -Infinity.  Every concrete value a theorem or witness
    equates with a program output is exact in binary64 (so the rational and
    the double arithmetic agree at that input); where an intermediate double
    would round (the 0.9-quantile position 89.1), the theorem states only a
    rounding-robust fact (a strict enclosing interval), never the exact
    rational.
  * A JavaScript object used as a label map is an insertion-ordered
    association list `Labels`; a JavaScript `Map` is an insertion-ordered
    association list manipulated through `mget` / `mset`.
  * `Date.now()` results are abstract millisecond timestamps (`Nat`),
    passed explicitly where the source calls `Date.now()`.
  * A thrown `Error` is an `Except String` error value; JavaScript
    exception semantics (the mutation is abandoned, the receiver keeps its
    previous state) is captured by `...Run` wrappers that keep the old
    state on error.
-/

set_option allowUnsafeReducibility true
set_option maxRecDepth 4000

/- Batteries marks the rational-number arithmetic irreducible for elaboration
performance; concrete evaluation of the embedded metric operations needs it
unfolded. -/
attribute [semireducible] Rat.add Rat.mul Rat.sub Rat.inv

/-- Model of a JavaScript number: an exact finite value or one of the three
non-finite values. -/
inductive JSNumber : Type
  | finite (q : ℚ)
  | posInf
  | negInf
  | nan
deriving DecidableEq

/-- `Number.isFinite`. -/
def JSNumber.isFinite : JSNumber → Bool
  | .finite _ => true
  | _ => false

/-- IEEE `<` comparison: any comparison with NaN is false. -/
def JSNumber.lt : JSNumber → JSNumber → Bool
  | .nan, _ => false
  | _, .nan => false
  | .negInf, .negInf => false
  | .negInf, _ => true
  | _, .negInf => false
  | .posInf, _ => false
  | .finite _, .posInf => true
  | .finite a, .finite b => decide (a < b)

/-- IEEE `<=` comparison: any comparison with NaN is false. -/
def JSNumber.le : JSNumber → JSNumber → Bool
  | .nan, _ => false
  | _, .nan => false
  | .negInf, _ => true
  | _, .negInf => false
  | _, .posInf => true
  | .posInf, .finite _ => false
  | .finite a, .finite b => decide (a ≤ b)

/-- IEEE addition restricted to the cases the sources can produce. -/
def JSNumber.add : JSNumber → JSNumber → JSNumber
  | .nan, _ => .nan
  | _, .nan => .nan
  | .posInf, .negInf => .nan
  | .negInf, .posInf => .nan
  | .posInf, _ => .posInf
  | _, .posInf => .posInf
  | .negInf, _ => .negInf
  | _, .negInf => .negInf
  | .finite a, .finite b => .finite (a + b)

/-- IEEE negation (the `-amount` in `Gauge.dec`). -/
def JSNumber.neg : JSNumber → JSNumber
  | .finite a => .finite (-a)
  | .posInf => .negInf
  | .negInf => .posInf
  | .nan => .nan

/-- The rational carried by a finite JS number.  Only consulted after an
`isFinite` guard has passed, so the value returned for the non-finite
constructors is never observable. -/
def JSNumber.toRat : JSNumber → ℚ
  | .finite q => q
  | _ => 0

/-- A JavaScript object used as a label-value map, in insertion order.
A real JS object has no duplicate keys; theorems that need that fact take a
`Nodup` hypothesis on the key list. -/
abbrev Labels := List (String × String)

/-- Byte-wise comparison of strings (`true` when `a` is not after `b`).
Models `String.prototype.localeCompare` restricted to the label names the
library accepts (ASCII identifiers matched by `/^[a-zA-Z_][a-zA-Z0-9_]*$/`):
on distinct such identifiers `localeCompare` is some strict total order, and
none of the properties proved below depends on which total order it is, so
the development fixes code-point order. -/
def strLeChars : List Char → List Char → Bool
  | [], _ => true
  | _ :: _, [] => false
  | c :: cs, d :: ds =>
    if c.toNat < d.toNat then true
    else if d.toNat < c.toNat then false
    else strLeChars cs ds

/-- String comparison used by the `sort` callback in `getTimeSeriesKey`. -/
def strLe (a b : String) : Bool := strLeChars a.data b.data

theorem strLeChars_total (xs ys : List Char) :
    strLeChars xs ys = true ∨ strLeChars ys xs = true := by
  induction xs generalizing ys with
  | nil => left; rfl
  | cons c cs ih =>
    cases ys with
    | nil => right; rfl
    | cons d ds =>
      by_cases h1 : c.toNat < d.toNat
      · left; simp [strLeChars, h1]
      · by_cases h2 : d.toNat < c.toNat
        · right; simp [strLeChars, h2]
        · rcases ih ds with h | h
          · left; simp [strLeChars, h1, h2, h]
          · right; simp [strLeChars, h1, h2, h]

theorem strLeChars_trans (xs ys zs : List Char) (h1 : strLeChars xs ys = true)
    (h2 : strLeChars ys zs = true) : strLeChars xs zs = true := by
  induction xs generalizing ys zs with
  | nil => rfl
  | cons c cs ih =>
    cases ys with
    | nil => simp [strLeChars] at h1
    | cons d ds =>
      cases zs with
      | nil => simp [strLeChars] at h2
      | cons e es =>
        simp only [strLeChars] at h1 h2 ⊢
        by_cases hcd : c.toNat < d.toNat
        · by_cases hde : d.toNat < e.toNat
          · have hce : c.toNat < e.toNat := lt_trans hcd hde
            simp [hce]
          · by_cases hed : e.toNat < d.toNat
            · simp [hde, hed] at h2
            · have hde2 : d.toNat = e.toNat := le_antisymm (not_lt.mp hed) (not_lt.mp hde)
              have hce : c.toNat < e.toNat := by rw [← hde2]; exact hcd
              simp [hce]
        · by_cases hdc : d.toNat < c.toNat
          · simp [hcd, hdc] at h1
          · have hcd2 : c.toNat = d.toNat := le_antisymm (not_lt.mp hdc) (not_lt.mp hcd)
            by_cases hde : d.toNat < e.toNat
            · have hce : c.toNat < e.toNat := by rw [hcd2]; exact hde
              simp [hce]
            · by_cases hed : e.toNat < d.toNat
              · simp [hde, hed] at h2
              · have hde2 : d.toNat = e.toNat := le_antisymm (not_lt.mp hed) (not_lt.mp hde)
                have hce1 : ¬ c.toNat < e.toNat := by rw [hcd2, hde2]; exact lt_irrefl _
                have hce2 : ¬ e.toNat < c.toNat := by rw [hcd2, hde2]; exact lt_irrefl _
                simp only [if_neg hcd, if_neg hdc] at h1
                simp only [if_neg hde, if_neg hed] at h2
                rw [if_neg hce1, if_neg hce2]
                exact ih ds es h1 h2

theorem strLeChars_antisymm (xs ys : List Char) (h1 : strLeChars xs ys = true)
    (h2 : strLeChars ys xs = true) : xs = ys := by
  induction xs generalizing ys with
  | nil =>
    cases ys with
    | nil => rfl
    | cons d ds => simp [strLeChars] at h2
  | cons c cs ih =>
    cases ys with
    | nil => simp [strLeChars] at h1
    | cons d ds =>
      simp only [strLeChars] at h1 h2
      by_cases hcd : c.toNat < d.toNat
      · have hdc : ¬ d.toNat < c.toNat := lt_asymm hcd
        simp [hcd, hdc] at h2
      · by_cases hdc : d.toNat < c.toNat
        · simp [hcd, hdc] at h1
        · have hval : c.toNat = d.toNat := le_antisymm (not_lt.mp hdc) (not_lt.mp hcd)
          have hc : c = d := Char.ext (UInt32.toNat.inj hval)
          simp only [if_neg hcd, if_neg hdc] at h1
          simp only [if_neg hdc, if_neg hcd] at h2
          rw [hc, ih ds h1 h2]

theorem strLe_antisymm (a b : String) (h1 : strLe a b = true)
    (h2 : strLe b a = true) : a = b :=
  String.ext (strLeChars_antisymm _ _ h1 h2)

/-- `BaseMetric.validateLabels` (BaseMetric.ts lines 88-104): every provided
label name must be declared, and every declared name must be provided. -/
def validateLabels (labelNames : List String) (labels : Labels) : Except String Unit :=
  match labels.find? (fun p => !(labelNames.contains p.1)) with
  | some p => .error ("Unexpected label: " ++ p.1)
  | none =>
    match labelNames.find? (fun n => !((labels.map Prod.fst).contains n)) with
    | some n => .error ("Missing label: " ++ n)
    | none => .ok ()

/-- The relation by which `getTimeSeriesKey` sorts its entries:
`.sort(([a], [b]) => a.localeCompare(b))`. -/
def entryLe (p q : String × String) : Prop := strLe p.1 q.1 = true

instance : DecidableRel entryLe := fun p q => by unfold entryLe; infer_instance

/-- The sorted entry list of `getTimeSeriesKey`
(`Object.entries(labels).sort(([a],[b]) => a.localeCompare(b))`).
`Array.prototype.sort` with a consistent comparator produces a permutation
of the input sorted by that comparator, which is exactly what
`List.insertionSort` produces. -/
def sortedEntries (labels : Labels) : Labels := labels.insertionSort entryLe

/-- `JSON.stringify` escaping of a string, restricted to the escapes that can
occur in the label names and values used in this development. -/
def jsonEscapeChar (c : Char) : String :=
  if c = '\\' then "\\\\"
  else if c = '"' then "\\\""
  else if c = '\n' then "\\n"
  else String.singleton c

def jsonQuote (s : String) : String :=
  "\"" ++ String.join (s.data.map jsonEscapeChar) ++ "\""

/-- `JSON.stringify` of one `[name, value]` entry. -/
def jsonEntry (p : String × String) : String :=
  "[" ++ jsonQuote p.1 ++ "," ++ jsonQuote p.2 ++ "]"

/-- `getTimeSeriesKey` as defined identically in Counter.ts (lines 114-117),
Summary (part_011 lines 273-276), Gauge, and Histogram: sort the entries by
label name, then `JSON.stringify` the sorted entry array. -/
def getTimeSeriesKey (labels : Labels) : String :=
  "[" ++ String.intercalate "," ((sortedEntries labels).map jsonEntry) ++ "]"

theorem sortedEntries_eq_of_perm (l1 l2 : Labels) (hperm : l1.Perm l2)
    (hnodup : (l1.map Prod.fst).Nodup) : sortedEntries l1 = sortedEntries l2 := by
  haveI htot : IsTotal (String × String) entryLe :=
    ⟨fun a b => strLeChars_total a.1.data b.1.data⟩
  haveI htrans : IsTrans (String × String) entryLe :=
    ⟨fun a b c h1 h2 => strLeChars_trans _ _ _ h1 h2⟩
  have hs1 : List.Sorted entryLe (sortedEntries l1) := List.sorted_insertionSort entryLe l1
  have hs2 : List.Sorted entryLe (sortedEntries l2) := List.sorted_insertionSort entryLe l2
  have hp : (sortedEntries l1).Perm (sortedEntries l2) :=
    (List.perm_insertionSort entryLe l1).trans
      (hperm.trans (List.perm_insertionSort entryLe l2).symm)
  have hne1 : List.Pairwise (fun p q : String × String => p.1 ≠ q.1) l1 :=
    List.pairwise_map.mp hnodup
  have hsymm : ∀ {x y : String × String}, x.1 ≠ y.1 → y.1 ≠ x.1 := fun h => h.symm
  have hneS1 : List.Pairwise (fun p q : String × String => p.1 ≠ q.1) (sortedEntries l1) :=
    ((List.perm_insertionSort entryLe l1).pairwise_iff hsymm).mpr hne1
  have hneS2 : List.Pairwise (fun p q : String × String => p.1 ≠ q.1) (sortedEntries l2) :=
    (hp.pairwise_iff hsymm).mp hneS1
  have strict : ∀ m : Labels, List.Sorted entryLe m →
      List.Pairwise (fun p q : String × String => p.1 ≠ q.1) m →
      List.Pairwise (fun p q : String × String => entryLe p q ∧ p.1 ≠ q.1) m :=
    fun m hs hn => hs.and hn
  haveI : IsAntisymm (String × String) (fun p q : String × String => entryLe p q ∧ p.1 ≠ q.1) :=
    ⟨fun a b h1 h2 => absurd (strLe_antisymm _ _ h1.1 h2.1) h1.2⟩
  exact List.eq_of_perm_of_sorted hp (strict _ hs1 hneS1) (strict _ hs2 hneS2)

/-- C3: For every multi-series metric type, any two label maps containing
exactly the same name-to-value pairs, regardless of insertion order, produce
the same canonical time-series key (`getTimeSeriesKey` is shared verbatim by
Counter, Gauge, Histogram and Summary), and therefore address the same
series. -/
theorem canonicalKey_order_independent (l1 l2 : Labels) (hperm : l1.Perm l2)
    (hnodup : (l1.map Prod.fst).Nodup) :
    getTimeSeriesKey l1 = getTimeSeriesKey l2 := by
  unfold getTimeSeriesKey
  rw [sortedEntries_eq_of_perm l1 l2 hperm hnodup]

/-- Witness for C3 at a concrete input: the maps
`{method: GET, status: "200"}` and `{status: "200", method: GET}` have the
same canonical key. -/
theorem canonicalKey_order_independent_witness :
    getTimeSeriesKey [("method", "GET"), ("status", "200")] =
      getTimeSeriesKey [("status", "200"), ("method", "GET")] :=
  canonicalKey_order_independent
    [("method", "GET"), ("status", "200")]
    [("status", "200"), ("method", "GET")]
    (by decide) (by decide)

/-- Decidable equality for `Except`, used to evaluate embedded operations on
concrete inputs. -/
def exceptDecEq {e a : Type} [DecidableEq e] [DecidableEq a] :
    (x y : Except e a) → Decidable (x = y)
  | .error x, .error y =>
    if h : x = y then .isTrue (by rw [h]) else .isFalse (fun hc => h (Except.error.inj hc))
  | .error _, .ok _ => .isFalse (fun hc => Except.noConfusion hc)
  | .ok _, .error _ => .isFalse (fun hc => Except.noConfusion hc)
  | .ok x, .ok y =>
    if h : x = y then .isTrue (by rw [h]) else .isFalse (fun hc => h (Except.ok.inj hc))

instance {e a : Type} [DecidableEq e] [DecidableEq a] : DecidableEq (Except e a) := exceptDecEq

/-- JavaScript `Map.prototype.get`: the value stored at the (unique) matching
key. -/
def mget {κ α : Type} [DecidableEq κ] : List (κ × α) → κ → Option α
  | [], _ => none
  | (k2, v) :: rest, k => if k2 = k then some v else mget rest k

/-- JavaScript `Map.prototype.set`: update an existing key in place (keeping
its insertion position) or append a new entry at the end. -/
def mset {κ α : Type} [DecidableEq κ] : List (κ × α) → κ → α → List (κ × α)
  | [], k, v => [(k, v)]
  | (k2, v2) :: rest, k, v =>
    if k2 = k then (k2, v) :: rest else (k2, v2) :: mset rest k v

/-- One Counter time series (Counter.ts line 24): value plus created/updated
millisecond timestamps.  The same record shape is returned by `Counter.get`,
where `new Date(0)` is modelled by timestamp `0`. -/
structure CounterEntry : Type where
  value : ℚ
  created : ℕ
  updated : ℕ
deriving DecidableEq

/-- The state of a `Counter` (Counter.ts): declared label names plus the
time-series map. -/
structure Counter : Type where
  labelNames : List String
  timeSeries : List (String × CounterEntry)
deriving DecidableEq

/-- `Counter` constructor (Counter.ts lines 31-40): the empty-label series is
pre-created with value `0` at construction time. -/
def counterNew (labelNames : List String) (now : ℕ) : Counter :=
  { labelNames := labelNames,
    timeSeries := [(getTimeSeriesKey [], { value := 0, created := now, updated := now })] }

/-- `Counter.inc` (Counter.ts lines 49-61).  The amount guard runs before
label validation and before any mutation.  Counter values stay finite
because only finite non-negative amounts pass the guard, so the entry value
is carried as `ℚ` and the amount contributes via `JSNumber.toRat`. -/
def counterInc (c : Counter) (amount : JSNumber) (labels : Labels) (now : ℕ) :
    Except String Counter :=
  if JSNumber.lt amount (.finite 0) || !amount.isFinite then
    .error "Counter increment amount must be positive"
  else
    match validateLabels c.labelNames labels with
    | .error e => .error e
    | .ok _ =>
      let key := getTimeSeriesKey labels
      let entry := (mget c.timeSeries key).getD { value := 0, created := now, updated := now }
      let entry2 : CounterEntry := { entry with value := entry.value + amount.toRat, updated := now }
      .ok { c with timeSeries := mset c.timeSeries key entry2 }

/-- JavaScript exception semantics for `counterInc`: a throwing call leaves
the receiver in its previous state. -/
def counterIncRun (c : Counter) (amount : JSNumber) (labels : Labels) (now : ℕ) : Counter :=
  match counterInc c amount labels now with
  | .ok c2 => c2
  | .error _ => c

/-- `Counter.get` (Counter.ts lines 68-82): a series that was never written
yields a zero snapshot with `new Date(0)` timestamps instead of an error or
an absence marker. -/
def counterGet (c : Counter) (labels : Labels) : Except String CounterEntry :=
  match validateLabels c.labelNames labels with
  | .error e => .error e
  | .ok _ =>
    match mget c.timeSeries (getTimeSeriesKey labels) with
    | none => .ok { value := 0, created := 0, updated := 0 }
    | some entry => .ok entry

/-- One labeled-Gauge time series (part_011 line 385). -/
structure GaugeEntry : Type where
  value : JSNumber
  updated : ℕ
deriving DecidableEq

/-- The state of the labeled multi-series `Gauge` (part_011 lines 380-507). -/
structure Gauge : Type where
  labelNames : List String
  timeSeries : List (String × GaugeEntry)
deriving DecidableEq

/-- Labeled `Gauge.inc` (part_011 lines 402-409).  Note: the source has no
finiteness check here; the amount is added unconditionally. -/
def gaugeInc (g : Gauge) (amount : JSNumber) (labels : Labels) (now : ℕ) :
    Except String Gauge :=
  match validateLabels g.labelNames labels with
  | .error e => .error e
  | .ok _ =>
    let key := getTimeSeriesKey labels
    let entry := (mget g.timeSeries key).getD { value := .finite 0, updated := 0 }
    let entry2 : GaugeEntry := { value := entry.value.add amount, updated := now }
    .ok { g with timeSeries := mset g.timeSeries key entry2 }

/-- Labeled `Gauge.dec` (part_011 lines 417-419): `inc(-amount, labels)`. -/
def gaugeDec (g : Gauge) (amount : JSNumber) (labels : Labels) (now : ℕ) :
    Except String Gauge :=
  gaugeInc g amount.neg labels now

/-- Labeled `Gauge.set` (part_011 lines 427-431).  Note: no finiteness check;
the value is stored unconditionally. -/
def gaugeSet (g : Gauge) (value : JSNumber) (labels : Labels) (now : ℕ) :
    Except String Gauge :=
  match validateLabels g.labelNames labels with
  | .error e => .error e
  | .ok _ =>
    .ok { g with timeSeries := mset g.timeSeries (getTimeSeriesKey labels) { value := value, updated := now } }

/-- Labeled `Gauge.get` (part_011 lines 440-448): plain lookup (no label
validation in the source), `null` for a series never written, modelled by
`none`. -/
def gaugeGet (g : Gauge) (labels : Labels) : Option GaugeEntry :=
  mget g.timeSeries (getTimeSeriesKey labels)

/-- The state of the single-series `Gauge` generation (part_012): one value
and one updated timestamp. -/
structure GaugeSingle : Type where
  value : JSNumber
  updated : ℕ
deriving DecidableEq

/-- Single-series `Gauge.inc` (part_012 lines 47-51): a non-finite amount is
silently ignored. -/
def gaugeSingleInc (g : GaugeSingle) (amount : JSNumber) (now : ℕ) : GaugeSingle :=
  if !amount.isFinite then g
  else { value := g.value.add amount, updated := now }

/-- Single-series `Gauge.dec` (part_012 lines 61-65): `this.value -= amount`,
modelled as addition of the negation. -/
def gaugeSingleDec (g : GaugeSingle) (amount : JSNumber) (now : ℕ) : GaugeSingle :=
  if !amount.isFinite then g
  else { value := g.value.add amount.neg, updated := now }

/-- Single-series `Gauge.set` (part_012 lines 74-78): a non-finite value is
silently ignored. -/
def gaugeSingleSet (g : GaugeSingle) (value : JSNumber) (now : ℕ) : GaugeSingle :=
  if !value.isFinite then g
  else { value := value, updated := now }

/-- C4: a negative or non-finite increment amount makes `Counter.inc` raise
(with the source's error message) before touching any series, so every
series keeps its value and timestamps. -/
theorem counter_inc_rejects_bad_amount (c : Counter) (amount : JSNumber)
    (labels : Labels) (now : ℕ)
    (h : JSNumber.lt amount (.finite 0) = true ∨ amount.isFinite = false) :
    counterInc c amount labels now = .error "Counter increment amount must be positive" ∧
    counterIncRun c amount labels now = c := by
  have hb : (JSNumber.lt amount (.finite 0) || !amount.isFinite) = true := by
    rcases h with h | h
    · simp [h]
    · simp [h]
  constructor
  · simp [counterInc, hb]
  · simp [counterIncRun, counterInc, hb]

/-- Witness for C4: `inc(-1)` on a fresh labeled counter raises and leaves
the counter unchanged. -/
theorem counter_inc_rejects_bad_amount_witness :
    counterInc (counterNew ["method"] 5) (.finite (-1)) [("method", "GET")] 7 =
      .error "Counter increment amount must be positive" ∧
    counterIncRun (counterNew ["method"] 5) (.finite (-1)) [("method", "GET")] 7 =
      counterNew ["method"] 5 :=
  counter_inc_rejects_bad_amount (counterNew ["method"] 5) (.finite (-1))
    [("method", "GET")] 7 (Or.inl (by norm_num [JSNumber.lt]))

/-- C10: on a schema-valid label combination whose series has never been
written, `Counter.get` returns a snapshot with value `0` and both timestamps
equal to `new Date(0)` (epoch, modelled as `0`) instead of raising or
signalling absence, while `Gauge.get` returns `null` (`none`) for a
never-written series. -/
theorem counter_get_default_vs_gauge_null (c : Counter) (g : Gauge) (labels : Labels)
    (hok : validateLabels c.labelNames labels = .ok ())
    (hc : mget c.timeSeries (getTimeSeriesKey labels) = none)
    (hg : mget g.timeSeries (getTimeSeriesKey labels) = none) :
    counterGet c labels = .ok { value := 0, created := 0, updated := 0 } ∧
    gaugeGet g labels = none := by
  constructor
  · unfold counterGet
    rw [hok, hc]
  · unfold gaugeGet
    exact hg

/-- Witness for C10: a fresh counter declaring label `method` with no write to
`method="GET"` yields the zero/epoch snapshot, and the matching gauge lookup
yields `none`. -/
theorem counter_get_default_vs_gauge_null_witness :
    counterGet (counterNew ["method"] 5) [("method", "GET")] =
      .ok { value := 0, created := 0, updated := 0 } ∧
    gaugeGet { labelNames := ["method"], timeSeries := [] } [("method", "GET")] = none :=
  counter_get_default_vs_gauge_null (counterNew ["method"] 5)
    { labelNames := ["method"], timeSeries := [] } [("method", "GET")]
    rfl rfl rfl

/-- C5 counterexample: on the labeled `Gauge` (part_011), `set(NaN)` with a
previously stored finite value `5` does not leave the stored value
unchanged — it stores NaN. -/
theorem gauge_set_nan_changes_value :
    gaugeSet { labelNames := [], timeSeries := [(getTimeSeriesKey [], { value := .finite 5, updated := 0 })] }
        .nan [] 1 =
      .ok { labelNames := [],
            timeSeries := [(getTimeSeriesKey [], { value := .nan, updated := 1 })] } ∧
    JSNumber.nan ≠ JSNumber.finite 5 := by
  constructor
  · rfl
  · intro h
    cases h

/-- C5 amended: a non-finite amount never raises in either Gauge generation;
the single-series `Gauge` (part_012) silently ignores it for `inc`, `dec` and
`set` (state unchanged), while the labeled `Gauge` (part_011) performs no
finiteness check at all: with valid labels, `set` succeeds and stores the
non-finite value, and `inc` / `dec` succeed and fold the amount (negated for
`dec`) into the stored value by IEEE arithmetic. -/
theorem gauge_nonfinite_amended (gs : GaugeSingle) (g : Gauge) (amount : JSNumber)
    (labels : Labels) (now : ℕ) (hnf : amount.isFinite = false)
    (hok : validateLabels g.labelNames labels = .ok ()) :
    gaugeSingleInc gs amount now = gs ∧
    gaugeSingleDec gs amount now = gs ∧
    gaugeSingleSet gs amount now = gs ∧
    gaugeSet g amount labels now =
      .ok { g with timeSeries := mset g.timeSeries (getTimeSeriesKey labels) { value := amount, updated := now } } ∧
    gaugeInc g amount labels now =
      .ok { g with timeSeries := mset g.timeSeries (getTimeSeriesKey labels) { value := JSNumber.add ((mget g.timeSeries (getTimeSeriesKey labels)).getD { value := .finite 0, updated := 0 }).value amount, updated := now } } ∧
    gaugeDec g amount labels now =
      .ok { g with timeSeries := mset g.timeSeries (getTimeSeriesKey labels) { value := JSNumber.add ((mget g.timeSeries (getTimeSeriesKey labels)).getD { value := .finite 0, updated := 0 }).value amount.neg, updated := now } } := by
  refine ⟨?_, ?_, ?_, ?_, ?_, ?_⟩
  · simp [gaugeSingleInc, hnf]
  · simp [gaugeSingleDec, hnf]
  · simp [gaugeSingleSet, hnf]
  · unfold gaugeSet
    rw [hok]
  · unfold gaugeInc
    rw [hok]
  · unfold gaugeDec gaugeInc
    rw [hok]

/-- Witness for C5 (amended): concrete non-finite input NaN on a concrete
single-series gauge holding `3`, and on an empty labeled gauge. -/
theorem gauge_nonfinite_amended_witness :
    gaugeSingleInc { value := .finite 3, updated := 0 } .nan 1 = { value := .finite 3, updated := 0 } ∧
    gaugeSingleDec { value := .finite 3, updated := 0 } .nan 1 = { value := .finite 3, updated := 0 } ∧
    gaugeSingleSet { value := .finite 3, updated := 0 } .nan 1 = { value := .finite 3, updated := 0 } ∧
    gaugeSet { labelNames := [], timeSeries := [] } .nan [] 1 =
      .ok { labelNames := [], timeSeries := [(getTimeSeriesKey [], { value := .nan, updated := 1 })] } ∧
    gaugeInc { labelNames := [], timeSeries := [] } .nan [] 1 =
      .ok { labelNames := [], timeSeries := [(getTimeSeriesKey [], { value := .nan, updated := 1 })] } ∧
    gaugeDec { labelNames := [], timeSeries := [] } .nan [] 1 =
      .ok { labelNames := [], timeSeries := [(getTimeSeriesKey [], { value := .nan, updated := 1 })] } :=
  gauge_nonfinite_amended { value := .finite 3, updated := 0 }
    { labelNames := [], timeSeries := [] } .nan [] 1 rfl rfl

theorem mget_mset_self {κ α : Type} [DecidableEq κ] (m : List (κ × α)) (k : κ) (v : α) :
    mget (mset m k v) k = some v := by
  induction m with
  | nil => simp [mset, mget]
  | cons p rest ih =>
    obtain ⟨k2, v2⟩ := p
    by_cases h : k2 = k
    · simp [mset, mget, h]
    · simp [mset, mget, h, ih]

theorem mget_mset_ne {κ α : Type} [DecidableEq κ] (m : List (κ × α)) (k k2 : κ) (v : α)
    (hne : k ≠ k2) : mget (mset m k v) k2 = mget m k2 := by
  induction m with
  | nil => simp [mset, mget, hne]
  | cons p rest ih =>
    obtain ⟨k3, v3⟩ := p
    by_cases h : k3 = k
    · subst h
      simp [mset, mget, hne, fun h2 : k3 = k2 => hne (h2 ▸ rfl)]
    · simp [mset, mget, h, ih]

/-- Rank used to order JS numbers for `Array.prototype.sort` with the
comparator `(a, b) => a - b` (Histogram.ts / GaugeHistogram.ts
constructors).  ECMAScript only guarantees a sorted permutation when the
comparator is consistent, which `a - b` is on finite numbers; on lists with
non-finite members the engine may produce any permutation, and every theorem
below is invariant under that choice (the validation result is
permutation-invariant, and sortedness of the stored boundaries is only
claimed for all-finite lists). -/
def jsRank : JSNumber → ℕ
  | .negInf => 0
  | .finite _ => 1
  | .posInf => 2
  | .nan => 3

def jsSortLe (a b : JSNumber) : Prop :=
  jsRank a < jsRank b ∨ (jsRank a = jsRank b ∧ a.toRat ≤ b.toRat)

instance : DecidableRel jsSortLe := fun a b => by unfold jsSortLe; infer_instance

instance : IsTotal JSNumber jsSortLe where
  total a b := by
    unfold jsSortLe
    rcases lt_trichotomy (jsRank a) (jsRank b) with h | h | h
    · exact Or.inl (Or.inl h)
    · rcases le_total a.toRat b.toRat with h2 | h2
      · exact Or.inl (Or.inr ⟨h, h2⟩)
      · exact Or.inr (Or.inr ⟨h.symm, h2⟩)
    · exact Or.inr (Or.inl h)

instance : IsTrans JSNumber jsSortLe where
  trans a b c h1 h2 := by
    unfold jsSortLe at h1 h2 ⊢
    rcases h1 with h1 | ⟨h1, h1b⟩
    · rcases h2 with h2 | ⟨h2, h2b⟩
      · exact Or.inl (lt_trans h1 h2)
      · exact Or.inl (h2 ▸ h1)
    · rcases h2 with h2 | ⟨h2, h2b⟩
      · exact Or.inl (by rw [h1]; exact h2)
      · exact Or.inr ⟨h1.trans h2, le_trans h1b h2b⟩

/-- `buckets.sort((a, b) => a - b)`. -/
def jsSortNumbers (l : List JSNumber) : List JSNumber := l.insertionSort jsSortLe

/-- The boundary test of the Histogram/GaugeHistogram constructors:
`b <= 0 || !Number.isFinite(b)`. -/
def badBucket (b : JSNumber) : Bool := JSNumber.le b (.finite 0) || !b.isFinite

/-- The default boundary list `[0.1, 0.5, 1, 5, 10]`. -/
def defaultBuckets : List JSNumber :=
  [.finite (mkRat 1 10), .finite (mkRat 1 2), .finite 1, .finite 5, .finite 10]

/-- Key of the bucket-count `Map`: the source keys it by `b.toString()` plus
the literal key `"+Inf"`; number-to-string conversion is injective on JS
numbers, so the boundary itself (or the `+Inf` marker) serves as the key. -/
inductive BucketKey : Type
  | num (b : ℚ)
  | inf
deriving DecidableEq

/-- One Histogram time series (Histogram part_007 lines 36-45). -/
structure HistSeries : Type where
  counts : List (BucketKey × ℕ)
  sum : ℚ
  count : ℕ
  created : ℕ
  updated : ℕ
deriving DecidableEq

/-- The state of a labeled `Histogram` (part_007). -/
structure Histogram : Type where
  labelNames : List String
  buckets : List ℚ
  timeSeries : List (String × HistSeries)
deriving DecidableEq

/-- `Histogram` constructor (part_007 lines 53-62): sort the provided (or
default) boundaries ascending, then reject any non-positive or non-finite
boundary.  In the accepting branch every boundary is finite, so the stored
list carries the rationals. -/
def histogramMk (labelNames : List String) (bucketsOpt : Option (List JSNumber)) :
    Except String Histogram :=
  let bs := jsSortNumbers (bucketsOpt.getD defaultBuckets)
  if bs.any badBucket then .error "Histogram buckets must be positive numbers"
  else .ok { labelNames := labelNames, buckets := bs.map JSNumber.toRat, timeSeries := [] }

/-- `initializeTimeSeries` (part_007 lines 69-87): zero count per boundary,
then the `+Inf` entry, fresh timestamps. -/
def histSeriesInit (buckets : List ℚ) (now : ℕ) : HistSeries :=
  { counts := mset (buckets.foldl (fun m b => mset m (BucketKey.num b) 0) []) .inf 0,
    sum := 0, count := 0, created := now, updated := now }

/-- The body of the bucket loop in `Histogram.observe` (part_007 lines
115-120): every bucket whose boundary is `>= value` is incremented. -/
def bumpBucket (v : ℚ) (m : List (BucketKey × ℕ)) (b : ℚ) : List (BucketKey × ℕ) :=
  if v ≤ b then mset m (.num b) ((mget m (.num b)).getD 0 + 1) else m

/-- The mutation `Histogram.observe` applies to one series (part_007 lines
110-121): running count and sum, the bucket loop, then the `+Inf` bucket. -/
def observeSeries (buckets : List ℚ) (s : HistSeries) (v : ℚ) (now : ℕ) : HistSeries :=
  let counts1 := buckets.foldl (bumpBucket v) s.counts
  let counts2 := mset counts1 .inf ((mget counts1 .inf).getD 0 + 1)
  { s with count := s.count + 1, sum := s.sum + v, updated := now, counts := counts2 }

/-- `Histogram.observe` (part_007 lines 97-122): guard, label validation,
get-or-create of the series, then the per-series mutation. -/
def histObserve (h : Histogram) (value : JSNumber) (labels : Labels) (now : ℕ) :
    Except String Histogram :=
  if JSNumber.lt value (.finite 0) || !value.isFinite then
    .error "Histogram observation value must be non-negative and finite"
  else
    match validateLabels h.labelNames labels with
    | .error e => .error e
    | .ok _ =>
      let key := getTimeSeriesKey labels
      let ts := if (mget h.timeSeries key).isSome then h.timeSeries
                else mset h.timeSeries key (histSeriesInit h.buckets now)
      let series := (mget ts key).getD (histSeriesInit h.buckets now)
      .ok { h with timeSeries := mset ts key (observeSeries h.buckets series value.toRat now) }

/-- JavaScript exception semantics for `histObserve`. -/
def histObserveRun (h : Histogram) (value : JSNumber) (labels : Labels) (now : ℕ) : Histogram :=
  match histObserve h value labels now with
  | .ok h2 => h2
  | .error _ => h

/-- The state of the single-series `GaugeHistogram` (GaugeHistogram.ts). -/
structure GaugeHistogram : Type where
  buckets : List ℚ
  counts : List (BucketKey × ℕ)
  sum : ℚ
  count : ℕ
  created : ℕ
  updated : ℕ
deriving DecidableEq

/-- `GaugeHistogram` constructor (GaugeHistogram.ts lines 62-74), taken on
the label-free path: sort the boundaries ascending, reject non-positive or
non-finite ones, then build the count map (`new Map` over entries is
sequential insertion). -/
def gaugeHistogramMk (bucketsOpt : Option (List JSNumber)) (now : ℕ) :
    Except String GaugeHistogram :=
  let bs := jsSortNumbers (bucketsOpt.getD defaultBuckets)
  if bs.any badBucket then .error "GaugeHistogram buckets must be positive numbers"
  else
    let buckets := bs.map JSNumber.toRat
    .ok { buckets := buckets,
          counts := mset (buckets.foldl (fun m b => mset m (BucketKey.num b) 0) []) .inf 0,
          sum := 0, count := 0, created := now, updated := now }

def isErr {α : Type} (e : Except String α) : Bool :=
  match e with
  | .error _ => true
  | .ok _ => false

def histBucketsOf (e : Except String Histogram) : List ℚ :=
  match e with
  | .ok h => h.buckets
  | .error _ => []

def ghBucketsOf (e : Except String GaugeHistogram) : List ℚ :=
  match e with
  | .ok g => g.buckets
  | .error _ => []

theorem foldl_bumpBucket_inf (v : ℚ) (bs : List ℚ) (m : List (BucketKey × ℕ)) :
    mget (bs.foldl (bumpBucket v) m) .inf = mget m .inf := by
  induction bs generalizing m with
  | nil => rfl
  | cons b rest ih =>
    rw [List.foldl_cons, ih]
    unfold bumpBucket
    by_cases h : v ≤ b
    · rw [if_pos h, mget_mset_ne]
      exact fun hc => BucketKey.noConfusion hc
    · rw [if_neg h]

theorem foldl_bumpBucket_num (v : ℚ) (bs : List ℚ) (b : ℚ) (m : List (BucketKey × ℕ))
    (hnd : bs.Nodup) :
    (mget (bs.foldl (bumpBucket v) m) (.num b)).getD 0 =
      (mget m (.num b)).getD 0 + (if b ∈ bs ∧ v ≤ b then 1 else 0) := by
  induction bs generalizing m with
  | nil => simp
  | cons b2 rest ih =>
    rw [List.foldl_cons]
    have hnotmem := (List.nodup_cons.mp hnd).1
    have hnd2 := (List.nodup_cons.mp hnd).2
    by_cases hb : b = b2
    · subst hb
      rw [ih _ hnd2, if_neg (fun hc => hnotmem hc.1)]
      unfold bumpBucket
      by_cases hv : v ≤ b
      · rw [if_pos hv, mget_mset_self]
        simp [hv]
      · rw [if_neg hv]
        simp [hv]
    · rw [ih _ hnd2]
      have hstep : mget (bumpBucket v m b2) (.num b) = mget m (.num b) := by
        unfold bumpBucket
        by_cases hv : v ≤ b2
        · rw [if_pos hv, mget_mset_ne]
          exact fun hc => hb (BucketKey.num.inj hc).symm
        · rw [if_neg hv]
      rw [hstep]
      have hmem : (b ∈ b2 :: rest ∧ v ≤ b) ↔ (b ∈ rest ∧ v ≤ b) := by
        simp [List.mem_cons, hb]
      rw [if_congr hmem rfl rfl]

/-- The concrete histogram of the claim: buckets `[1, 2, 3]`, then the
observations `0.5, 1.5, 2.5, 10` on the unlabeled series. -/
def histExample : Histogram :=
  [mkRat 1 2, mkRat 3 2, mkRat 5 2, 10].foldl
    (fun h v => histObserveRun h (.finite v) [] 0)
    { labelNames := [], buckets := [1, 2, 3], timeSeries := [] }

def histExampleSeries : HistSeries :=
  (mget histExample.timeSeries (getTimeSeriesKey [])).getD (histSeriesInit [1, 2, 3] 0)

/-- C6: `Histogram.observe` with a finite non-negative value increments
exactly the bucket counts whose boundary is `>= v` plus the `+Inf` count,
adds `v` to the running sum and `1` to the running count; in particular with
buckets `[1,2,3]` and observations `[0.5, 1.5, 2.5, 10]` the `le="1"` count
is `1` and the `le="+Inf"` count is `4`. -/
theorem histogram_observe_cumulative (h : Histogram) (s : HistSeries) (q : ℚ)
    (labels : Labels) (now : ℕ) (b : ℚ) (hq : 0 ≤ q)
    (hok : validateLabels h.labelNames labels = .ok ())
    (hs : mget h.timeSeries (getTimeSeriesKey labels) = some s)
    (hnd : h.buckets.Nodup) (hb : b ∈ h.buckets) :
    histObserve h (.finite q) labels now =
      .ok { h with timeSeries := mset h.timeSeries (getTimeSeriesKey labels)
                      (observeSeries h.buckets s q now) } ∧
    (mget (observeSeries h.buckets s q now).counts (.num b)).getD 0 =
      (mget s.counts (.num b)).getD 0 + (if q ≤ b then 1 else 0) ∧
    (mget (observeSeries h.buckets s q now).counts .inf).getD 0 =
      (mget s.counts .inf).getD 0 + 1 ∧
    (observeSeries h.buckets s q now).sum = s.sum + q ∧
    (observeSeries h.buckets s q now).count = s.count + 1 ∧
    (mget histExampleSeries.counts (.num 1)).getD 0 = 1 ∧
    (mget histExampleSeries.counts .inf).getD 0 = 4 := by
  have hguard : (JSNumber.lt (.finite q) (.finite 0) || !(JSNumber.isFinite (.finite q))) = false := by
    simp [JSNumber.lt, JSNumber.isFinite, not_lt.mpr hq]
  refine ⟨?_, ?_, ?_, ?_, ?_, ?_, ?_⟩
  · unfold histObserve
    rw [hguard]
    simp only [Bool.false_eq_true, if_false, hok, hs, Option.isSome_some, if_pos,
      Option.getD_some, JSNumber.toRat]
  · unfold observeSeries
    simp only
    rw [mget_mset_ne _ _ _ _ (fun hc => BucketKey.noConfusion hc),
      foldl_bumpBucket_num _ _ _ _ hnd]
    simp [hb]
  · unfold observeSeries
    simp only
    rw [mget_mset_self, foldl_bumpBucket_inf]
    simp
  · simp [observeSeries]
  · simp [observeSeries]
  · decide
  · decide

/-- Histogram with a pre-created unlabeled series, used to witness C6. -/
def histW : Histogram :=
  { labelNames := [], buckets := [1, 2, 3],
    timeSeries := [(getTimeSeriesKey [], histSeriesInit [1, 2, 3] 0)] }

/-- Witness for C6 at the concrete input `observe(0.5)` on `histW`, checked
against boundary `1`. -/
theorem histogram_observe_cumulative_witness :
    histObserve histW (.finite (mkRat 1 2)) [] 7 =
      .ok { histW with timeSeries := mset histW.timeSeries (getTimeSeriesKey [])
                          (observeSeries histW.buckets (histSeriesInit [1, 2, 3] 0) (mkRat 1 2) 7) } ∧
    (mget (observeSeries histW.buckets (histSeriesInit [1, 2, 3] 0) (mkRat 1 2) 7).counts
        (.num 1)).getD 0 =
      (mget (histSeriesInit [1, 2, 3] 0).counts (.num 1)).getD 0 +
        (if (mkRat 1 2) ≤ 1 then 1 else 0) ∧
    (mget (observeSeries histW.buckets (histSeriesInit [1, 2, 3] 0) (mkRat 1 2) 7).counts
        .inf).getD 0 =
      (mget (histSeriesInit [1, 2, 3] 0).counts .inf).getD 0 + 1 ∧
    (observeSeries histW.buckets (histSeriesInit [1, 2, 3] 0) (mkRat 1 2) 7).sum =
      (histSeriesInit [1, 2, 3] 0).sum + (mkRat 1 2) ∧
    (observeSeries histW.buckets (histSeriesInit [1, 2, 3] 0) (mkRat 1 2) 7).count =
      (histSeriesInit [1, 2, 3] 0).count + 1 ∧
    (mget histExampleSeries.counts (.num 1)).getD 0 = 1 ∧
    (mget histExampleSeries.counts .inf).getD 0 = 4 :=
  histogram_observe_cumulative histW (histSeriesInit [1, 2, 3] 0) (mkRat 1 2) [] 7 1
    (by decide) rfl (by decide) (by decide) (by decide)

theorem perm_any {α : Type} (f : α → Bool) {l1 l2 : List α} (h : l1.Perm l2) :
    l1.any f = l2.any f := by
  cases hb : l2.any f with
  | false =>
    rw [List.any_eq_false] at hb ⊢
    intro x hx
    exact hb x (h.mem_iff.mp hx)
  | true =>
    rw [List.any_eq_true] at hb ⊢
    obtain ⟨x, hx, hfx⟩ := hb
    exact ⟨x, h.mem_iff.mpr hx, hfx⟩

theorem sorted_toRat_of_all_finite (l : List JSNumber) (hs : List.Sorted jsSortLe l)
    (hf : ∀ x ∈ l, x.isFinite = true) :
    List.Sorted (· ≤ ·) (l.map JSNumber.toRat) := by
  apply List.pairwise_map.mpr
  refine List.Pairwise.imp_of_mem ?_ hs
  intro a b ha hb hab
  have hfa := hf a ha
  have hfb := hf b hb
  cases a with
  | finite qa =>
    cases b with
    | finite qb =>
      rcases hab with hlt | ⟨_, hle⟩
      · exact absurd hlt (by simp [jsRank])
      · exact hle
    | posInf => cases hfb
    | negInf => cases hfb
    | nan => cases hfb
  | posInf => cases hfa
  | negInf => cases hfa
  | nan => cases hfa

/-- C8 (amended): the Histogram and GaugeHistogram constructors accept a
non-ascending boundary list — the list is sorted ascending before
validation, so construction fails exactly when some boundary is non-positive
or non-finite, and the stored boundary list is always ascending. -/
theorem histogram_bucket_validation_amended (ln : List String) (bs : List JSNumber) (now : ℕ) :
    isErr (histogramMk ln (some bs)) = bs.any badBucket ∧
    isErr (gaugeHistogramMk (some bs) now) = bs.any badBucket ∧
    List.Sorted (· ≤ ·) (histBucketsOf (histogramMk ln (some bs))) ∧
    List.Sorted (· ≤ ·) (ghBucketsOf (gaugeHistogramMk (some bs) now)) := by
  have hperm : (jsSortNumbers bs).Perm bs := List.perm_insertionSort _ _
  have hany : (jsSortNumbers bs).any badBucket = bs.any badBucket := perm_any badBucket hperm
  have hfin : (jsSortNumbers bs).any badBucket = false →
      ∀ x ∈ jsSortNumbers bs, x.isFinite = true := by
    intro hfalse x hx
    have h0 := Bool.eq_false_iff.mpr (List.any_eq_false.mp hfalse x hx)
    unfold badBucket at h0
    rcases Bool.or_eq_false_iff.mp h0 with ⟨_, h2⟩
    cases hi : x.isFinite
    · rw [hi] at h2
      cases h2
    · rfl
  have hsorted : List.Sorted jsSortLe (jsSortNumbers bs) := List.sorted_insertionSort _ _
  refine ⟨?_, ?_, ?_, ?_⟩
  · cases hcase : (jsSortNumbers bs).any badBucket with
    | false => simp [histogramMk, isErr, Option.getD_some, hcase, ← hany]
    | true => simp [histogramMk, isErr, Option.getD_some, hcase, ← hany]
  · cases hcase : (jsSortNumbers bs).any badBucket with
    | false => simp [gaugeHistogramMk, isErr, Option.getD_some, hcase, ← hany]
    | true => simp [gaugeHistogramMk, isErr, Option.getD_some, hcase, ← hany]
  · cases hcase : (jsSortNumbers bs).any badBucket with
    | false =>
      simp only [histogramMk, histBucketsOf, Option.getD_some, hcase, Bool.false_eq_true,
        if_false]
      exact sorted_toRat_of_all_finite _ hsorted (hfin hcase)
    | true => simp [histogramMk, histBucketsOf, Option.getD_some, hcase]
  · cases hcase : (jsSortNumbers bs).any badBucket with
    | false =>
      simp only [gaugeHistogramMk, ghBucketsOf, Option.getD_some, hcase, Bool.false_eq_true,
        if_false]
      exact sorted_toRat_of_all_finite _ hsorted (hfin hcase)
    | true => simp [gaugeHistogramMk, ghBucketsOf, Option.getD_some, hcase]

/-- C8 counterexample: the non-ascending, positive and finite boundary list
`[3, 1, 2]` is accepted by both constructors (sorted to `[1, 2, 3]`), not
rejected — so a non-ascending boundary list is not a construction-time
error. -/
theorem histogram_nonascending_accepted :
    histogramMk [] (some [.finite 3, .finite 1, .finite 2]) =
      .ok { labelNames := [], buckets := [1, 2, 3], timeSeries := [] } ∧
    gaugeHistogramMk (some [.finite 3, .finite 1, .finite 2]) 0 =
      .ok { buckets := [1, 2, 3],
            counts := [(.num 1, 0), (.num 2, 0), (.num 3, 0), (.inf, 0)],
            sum := 0, count := 0, created := 0, updated := 0 } := by
  constructor
  · decide
  · decide

/-- One Summary observation bucket (types.ts `SummaryBucket`): raw values,
partial sum, partial count and the bucket-open timestamp. -/
structure SummaryBucket : Type where
  values : List ℚ
  sum : ℚ
  count : ℕ
  timestamp : ℕ
deriving DecidableEq

/-- One Summary time series (part_011 lines 57-68).  `rotationInterval` is
the identifier of the series' `setInterval` timer. -/
structure SummarySeries : Type where
  buckets : List SummaryBucket
  currentBucket : SummaryBucket
  sum : ℚ
  count : ℕ
  created : ℕ
  updated : ℕ
  rotationInterval : ℕ
deriving DecidableEq

/-- `createBucket` (part_011 lines 89-91). -/
def createBucket (now : ℕ) : SummaryBucket :=
  { values := [], sum := 0, count := 0, timestamp := now }

/-- `initializeTimeSeries` (part_011 lines 110-123) at the series level, with
the fresh `setInterval` handle passed in as `timerId`. -/
def summarySeriesInit (timerId : ℕ) (now : ℕ) : SummarySeries :=
  { buckets := [], currentBucket := createBucket now, sum := 0, count := 0,
    created := now, updated := now, rotationInterval := timerId }

/-- The per-series part of `Summary.observe` (part_011 lines 164-184): the
numeric guard, then append to the current bucket and bump the bucket and
series aggregates. -/
def summaryObserveSeries (s : SummarySeries) (value : JSNumber) (now : ℕ) :
    Except String SummarySeries :=
  if !value.isFinite || JSNumber.lt value (.finite 0) then
    .error "Summary observation value must be finite and non-negative"
  else
    let v := value.toRat
    .ok { s with
          currentBucket := { values := s.currentBucket.values ++ [v],
                             sum := s.currentBucket.sum + v,
                             count := s.currentBucket.count + 1,
                             timestamp := s.currentBucket.timestamp },
          sum := s.sum + v, count := s.count + 1, updated := now }

/-- JavaScript exception semantics for `summaryObserveSeries`. -/
def summaryObserveSeriesRun (s : SummarySeries) (value : JSNumber) (now : ℕ) : SummarySeries :=
  match summaryObserveSeries s value now with
  | .ok s2 => s2
  | .error _ => s

/-- The whole Summary state (part_011 line 57): the time-series map, plus the
set of timer handles on which `clearInterval` has been called (a cleared
interval never fires again). -/
structure SummaryState : Type where
  timeSeries : List (String × SummarySeries)
  cancelled : List ℕ
deriving DecidableEq

/-- `rotateBuckets` (part_011 lines 130-140): close the current bucket, drop
buckets older than `now - maxAgeMs`, recompute the aggregates from the
retained buckets (`recalculateAggregates`, lines 147-150), open a fresh
bucket.  A missing series is a no-op.  The cutoff is computed in `ℤ` because
it may be negative. -/
def rotateBuckets (maxAgeMs : ℕ) (st : SummaryState) (key : String) (now : ℕ) : SummaryState :=
  match mget st.timeSeries key with
  | none => st
  | some series =>
    let kept := (series.buckets ++ [series.currentBucket]).filter
      (fun b => decide ((now : ℤ) - (maxAgeMs : ℤ) ≤ (b.timestamp : ℤ)))
    let sum2 := kept.foldl (fun a b => a + b.sum) 0
    let count2 := kept.foldl (fun a b => a + b.count) 0
    let series2 : SummarySeries :=
      { series with buckets := kept, sum := sum2, count := count2,
                    currentBucket := createBucket now, updated := now }
    { st with timeSeries := mset st.timeSeries key series2 }

/-- The scheduler-level rotation event: an interval that was cleared never
fires; otherwise the `rotateBuckets` callback runs for its key. -/
def fireRotation (maxAgeMs : ℕ) (st : SummaryState) (key : String) (timerId : ℕ) (now : ℕ) :
    SummaryState :=
  if timerId ∈ st.cancelled then st else rotateBuckets maxAgeMs st key now

/-- `Summary.destroy` (part_011 lines 343-348): `clearInterval` on every
series' rotation timer, then clear the map. -/
def destroySummary (st : SummaryState) : SummaryState :=
  { timeSeries := [],
    cancelled := st.cancelled ++ st.timeSeries.map (fun p => p.2.rotationInterval) }

/-- C9: `Summary.destroy` cancels every series' rotation timer and clears all
series data; it is idempotent; and no rotation event that fires after
`destroy` mutates the state again (the callback finds no series and
no-ops). -/
theorem summary_destroy_spec (maxAgeMs : ℕ) (st : SummaryState) (key key2 : String)
    (series : SummarySeries) (timerId now : ℕ)
    (hmem : (key2, series) ∈ st.timeSeries) :
    destroySummary (destroySummary st) = destroySummary st ∧
    (destroySummary st).timeSeries = [] ∧
    series.rotationInterval ∈ (destroySummary st).cancelled ∧
    fireRotation maxAgeMs (destroySummary st) key timerId now = destroySummary st ∧
    rotateBuckets maxAgeMs (destroySummary st) key now = destroySummary st := by
  refine ⟨?_, rfl, ?_, ?_, ?_⟩
  · simp [destroySummary]
  · simp only [destroySummary, List.mem_append, List.mem_map]
    exact Or.inr ⟨(key2, series), hmem, rfl⟩
  · unfold fireRotation
    by_cases h : timerId ∈ (destroySummary st).cancelled
    · rw [if_pos h]
    · rw [if_neg h]
      rfl
  · rfl

/-- Witness for C9 on a one-series summary whose timer handle is `5`. -/
theorem summary_destroy_spec_witness :
    destroySummary (destroySummary { timeSeries := [("k", summarySeriesInit 5 0)], cancelled := [] }) =
      destroySummary { timeSeries := [("k", summarySeriesInit 5 0)], cancelled := [] } ∧
    (destroySummary { timeSeries := [("k", summarySeriesInit 5 0)], cancelled := [] }).timeSeries = [] ∧
    (summarySeriesInit 5 0).rotationInterval ∈
      (destroySummary { timeSeries := [("k", summarySeriesInit 5 0)], cancelled := [] }).cancelled ∧
    fireRotation 1000 (destroySummary { timeSeries := [("k", summarySeriesInit 5 0)], cancelled := [] }) "k" 5 7 =
      destroySummary { timeSeries := [("k", summarySeriesInit 5 0)], cancelled := [] } ∧
    rotateBuckets 1000 (destroySummary { timeSeries := [("k", summarySeriesInit 5 0)], cancelled := [] }) "k" 7 =
      destroySummary { timeSeries := [("k", summarySeriesInit 5 0)], cancelled := [] } :=
  summary_destroy_spec 1000 { timeSeries := [("k", summarySeriesInit 5 0)], cancelled := [] }
    "k" "k" (summarySeriesInit 5 0) 5 7 (by decide)

/-- `allValues` of one series in `Summary.getMetric` (part_011 line 301):
`series.buckets.concat([series.currentBucket]).flatMap(b => b.values)`. -/
def gatherValues (s : SummarySeries) : List ℚ :=
  (s.buckets ++ [s.currentBucket]).flatMap SummaryBucket.values

/-- `[...allValues].sort((a, b) => a - b)` (part_011 line 304). -/
def sortValues (l : List ℚ) : List ℚ := l.insertionSort (· ≤ ·)

/-- JavaScript array indexing with a possibly out-of-range integer index:
`undefined` (here `none`) outside the range. -/
def listGetInt (l : List ℚ) (i : ℤ) : Option ℚ :=
  if 0 ≤ i then l.get? i.toNat else none

/-- The quantile value computed for one requested quantile in
`Summary.getMetric` (part_011 lines 306-317): `pos = q * (n - 1)`,
`base = Math.floor(pos)`, `rest = pos - base`, then `sorted[base]` when
`sorted[base + 1]` is `undefined`, the linear interpolation otherwise, and
`NaN` (`none`) when `sorted[base]` is `undefined`. -/
def quantileValue (q : ℚ) (sorted : List ℚ) : Option ℚ :=
  let pos := q * ((sorted.length : ℚ) - 1)
  let base := ⌊pos⌋
  let rest := pos - (base : ℚ)
  match listGetInt sorted base with
  | none => none
  | some baseValue =>
    match listGetInt sorted (base + 1) with
    | some nextValue => some (baseValue + rest * (nextValue - baseValue))
    | none => some baseValue

/-- The quantile lines `Summary.getMetric` renders for one series (part_011
lines 303-325): one `(q, value)` pair per requested quantile, with `none`
standing for the literal `NaN` rendered both when the gathered value list is
empty and when indexing misses.  The string formatting of `q` and of the
value is outside this embedding (claims compare values modulo float
formatting). -/
def renderQuantiles (quantiles : List ℚ) (allValues : List ℚ) : List (ℚ × Option ℚ) :=
  if 0 < allValues.length then
    let sorted := sortValues allValues
    quantiles.map (fun q => (q, quantileValue q sorted))
  else
    quantiles.map (fun q => (q, none))

/-- `sorted[i]` as a total function, `0` out of range (only consulted in
range). -/
def getQ (l : List ℚ) (n : ℕ) : ℚ := (l.get? n).getD 0

/-- Modelled from the spec (spec.md section 4.6): the claimed quantile
formula — `p = q * (n - 1)`, `base = floor(p)`, `frac = p - base`,
`sorted[base]` if `base` is the last index, else
`sorted[base] + frac * (sorted[base+1] - sorted[base])`. -/
def specQuantile (q : ℚ) (sorted : List ℚ) : ℚ :=
  let n := sorted.length
  let pos := q * ((n : ℚ) - 1)
  let base := (⌊pos⌋).toNat
  let frac := pos - (base : ℚ)
  if base = n - 1 then getQ sorted base
  else getQ sorted base + frac * (getQ sorted (base + 1) - getQ sorted base)

/-- C1: for a Summary series with at least one retained sample and a
quantile strictly between 0 and 1 (the only quantiles the constructor
accepts), the rendered quantile value is exactly the spec's
sort/floor/interpolate formula over the gathered raw values; and with zero
retained samples every requested quantile is rendered as a `NaN` line —
one pair per quantile, none omitted, no error. -/
theorem summary_quantile_formula (series : SummarySeries) (q : ℚ) (qs : List ℚ)
    (hq0 : 0 < q) (hq1 : q < 1) (hne : gatherValues series ≠ []) :
    quantileValue q (sortValues (gatherValues series)) =
      some (specQuantile q (sortValues (gatherValues series))) ∧
    renderQuantiles qs [] = qs.map (fun x => (x, none)) := by
  constructor
  · set sorted := sortValues (gatherValues series) with hsorted
    have hn1 : 1 ≤ sorted.length := by
      rw [hsorted]
      unfold sortValues
      rw [List.length_insertionSort]
      exact Nat.one_le_iff_ne_zero.mpr (fun h0 => hne (List.length_eq_zero.mp h0))
    set n := sorted.length with hn
    set pos := q * ((n : ℚ) - 1) with hpos
    have hpos0 : 0 ≤ pos := by
      rw [hpos]
      apply mul_nonneg (le_of_lt hq0)
      have : (1 : ℚ) ≤ (n : ℚ) := by exact_mod_cast hn1
      linarith
    have hfloor0 : 0 ≤ ⌊pos⌋ := Int.floor_nonneg.mpr hpos0
    have hcast : ((⌊pos⌋.toNat : ℕ) : ℚ) = ((⌊pos⌋ : ℤ) : ℚ) := by
      exact_mod_cast congrArg (fun z : ℤ => (z : ℚ)) (Int.toNat_of_nonneg hfloor0)
    rcases Nat.lt_or_ge 1 n with hn2 | hn2
    · -- n ≥ 2: the interpolation branch on both sides
      have hposlt : pos < (n : ℚ) - 1 := by
        rw [hpos]
        have hpo : (0 : ℚ) < (n : ℚ) - 1 := by
          have : (2 : ℚ) ≤ (n : ℚ) := by exact_mod_cast hn2
          linarith
        calc q * ((n : ℚ) - 1) < 1 * ((n : ℚ) - 1) := by
              exact mul_lt_mul_of_pos_right hq1 hpo
          _ = (n : ℚ) - 1 := one_mul _
      have hfloorlt : ⌊pos⌋ < (n : ℤ) - 1 := by
        rw [Int.floor_lt]
        push_cast
        exact hposlt
      have hbaselt : ⌊pos⌋.toNat < n - 1 := by
        omega
      have hbn : ⌊pos⌋.toNat < n := by omega
      have hb1n : ⌊pos⌋.toNat + 1 < n := by omega
      have hget0 : sorted.get? ⌊pos⌋.toNat = some (getQ sorted ⌊pos⌋.toNat) := by
        rw [List.get?_eq_get hbn]
        unfold getQ
        rw [List.get?_eq_get hbn]
        rfl
      have hget1 : sorted.get? (⌊pos⌋.toNat + 1) = some (getQ sorted (⌊pos⌋.toNat + 1)) := by
        rw [List.get?_eq_get hb1n]
        unfold getQ
        rw [List.get?_eq_get hb1n]
        rfl
      unfold quantileValue specQuantile listGetInt
      simp only [← hn, ← hpos]
      rw [if_pos hfloor0]
      have htn1 : (⌊pos⌋ + 1).toNat = ⌊pos⌋.toNat + 1 := by omega
      rw [if_pos (by omega : (0 : ℤ) ≤ ⌊pos⌋ + 1), htn1, hget0, hget1]
      rw [if_neg (by omega : ¬ ⌊pos⌋.toNat = n - 1)]
      rw [hcast]
    · -- n = 1: pos = 0, base is the last (only) index
      have hn1' : n = 1 := le_antisymm hn2 hn1
      have hpos0' : pos = 0 := by
        rw [hpos, hn1']
        norm_num
      have hfloor : ⌊pos⌋ = 0 := by
        rw [hpos0']
        exact Int.floor_zero
      have hget0 : sorted.get? 0 = some (getQ sorted 0) := by
        have h0 : 0 < n := by omega
        rw [List.get?_eq_get h0]
        unfold getQ
        rw [List.get?_eq_get h0]
        rfl
      have hget1 : sorted.get? 1 = none := by
        rw [List.get?_eq_none]
        omega
      have hget0i : sorted[(0 : ℕ)]? = some (getQ sorted 0) := by
        rw [← List.get?_eq_getElem?]
        exact hget0
      have hget1i : sorted[(1 : ℕ)]? = none := by
        rw [← List.get?_eq_getElem?]
        exact hget1
      unfold quantileValue specQuantile listGetInt
      simp only [← hn, ← hpos, hfloor]
      norm_num
      rw [hget0i, hget1i]
      rw [if_pos (by omega : (0 : ℕ) = n - 1)]
  · unfold renderQuantiles
    norm_num

/-- Series used to witness C1: one open bucket holding the observations
`2, 1`. -/
def summaryW : SummarySeries :=
  { buckets := [], currentBucket := { values := [2, 1], sum := 3, count := 2, timestamp := 0 },
    sum := 3, count := 2, created := 0, updated := 0, rotationInterval := 0 }

/-- Witness for C1 at `q = 0.5` over the two retained samples of `summaryW`,
plus the `NaN` rendering for an empty sample list. -/
theorem summary_quantile_formula_witness :
    quantileValue (mkRat 1 2) (sortValues (gatherValues summaryW)) =
      some (specQuantile (mkRat 1 2) (sortValues (gatherValues summaryW))) ∧
    renderQuantiles [mkRat 1 2] [] = [mkRat 1 2].map (fun x => (x, none)) :=
  summary_quantile_formula summaryW (mkRat 1 2) [mkRat 1 2]
    (by decide) (by decide) (by decide)

/-- The observations `1, 2, ..., 100`. -/
def values1to100 : List ℚ := (List.range 100).map (fun i => (i : ℚ) + 1)

/-- A Summary series after observing `1 .. 100` (no rotation has fired). -/
def series1to100 : SummarySeries :=
  values1to100.foldl (fun s v => summaryObserveSeriesRun s (.finite v) 0)
    (summarySeriesInit 0 0)

/-- C2 counterexample: after observing `1 .. 100`, the rendered `0.5`
quantile is `50.5` (`pos = 0.5 * 99 = 49.5` interpolates between `50` and
`51`), not `50`. -/
theorem summary_median_1to100_counterexample :
    renderQuantiles [mkRat 1 2] (gatherValues series1to100) =
      [(mkRat 1 2, some (mkRat 101 2))] ∧
    some (mkRat 101 2) ≠ some (50 : ℚ) := by
  constructor
  · decide
  · decide

/-- C2 amended: after observing `1 .. 100`, rendering the quantile `0.5`
yields `50.5` (`0.5 * 99 = 49.5` is exact in binary64, as is the
interpolation), not `50`; and the rendered `0.9` quantile interpolates at a
non-integer position into a value strictly between `90` and `91`, so it is
not `90` either (the source's doubles put the position in `(89, 90)` and the
interpolation fraction in `(0, 1)` just as the exact rationals do, so the
enclosing interval — unlike the exact intermediate value `90.1` — survives
binary64 rounding).  The unit test still passes because its substring
assertions only check the prefixes `" 50"` and `" 90"` of the rendered
lines. -/
theorem summary_quantiles_1to100_amended :
    renderQuantiles [mkRat 1 2] (gatherValues series1to100) =
      [(mkRat 1 2, some (mkRat 101 2))] ∧
    (∃ v : ℚ, quantileValue (mkRat 9 10) (sortValues (gatherValues series1to100)) = some v ∧
      90 < v ∧ v < 91) := by
  refine ⟨by decide, ⟨mkRat 901 10, by decide, by decide, by decide⟩⟩

/-- Per-character escaping of `escapeLabelValue` (BaseMetric.ts lines
160-162).  The source's three sequential global replaces (backslash, then
newline, then double quote) equal this single per-character map, because no
replacement output contains a character matched by a later pass. -/
def escapeChar (c : Char) : String :=
  if c = '\\' then "\\\\"
  else if c = '\n' then "\\n"
  else if c = '"' then "\\\""
  else String.singleton c

def escapeLabelValue (s : String) : String := String.join (s.data.map escapeChar)

/-- `BaseMetric.formatLabels` (BaseMetric.ts lines 123-126): `{k="v",...}`,
or the empty string when no labels apply. -/
def formatLabels (labels : Labels) : String :=
  if labels.isEmpty then ""
  else
    "\x7b" ++
      String.intercalate "," (labels.map (fun p => p.1 ++ "=\"" ++ escapeLabelValue p.2 ++ "\"")) ++
      "\x7d"

/-- One Summary quantile data line (part_011 line 319), template
`fullName ++ "\x7bquantile=\"" ++ q ++ "\"" ++ (labelStr ? "," + labelStr.slice(1) : "") ++ "\x7d " ++ value`;
the numeric rendering of the quantile and of the value are passed in as
strings (the claim is modulo float formatting). -/
def renderSummaryQuantileLine (fullName : String) (labels : Labels) (qStr valueStr : String) :
    String :=
  let labelStr := formatLabels labels
  fullName ++ "\x7bquantile=\"" ++ qStr ++ "\"" ++
    (if labelStr ≠ "" then "," ++ labelStr.drop 1 else "") ++ "\x7d " ++ valueStr

/-- Modelled from the spec (spec.md section 6, label rendering and data line
shape): scan one label value up to its closing quote, undoing the backslash,
newline and double-quote escapes.  Fuel-indexed; the fuel is at least the
input length wherever it is called. -/
def scanLabelValue : ℕ → List Char → Option (String × List Char)
  | 0, _ => none
  | _, [] => none
  | fuel + 1, c :: cs =>
    if c = '"' then some ("", cs)
    else if c = '\\' then
      match cs with
      | [] => none
      | d :: ds =>
        let decoded : Option Char :=
          if d = 'n' then some '\n'
          else if d = '\\' then some '\\'
          else if d = '"' then some '"'
          else none
        match decoded with
        | none => none
        | some ch =>
          match scanLabelValue fuel ds with
          | none => none
          | some (s, rest) => some (String.singleton ch ++ s, rest)
    else
      match scanLabelValue fuel cs with
      | none => none
      | some (s, rest) => some (String.singleton c ++ s, rest)

/-- Modelled from the spec (spec.md section 6): the `name="value"` pairs of a
label block, comma-separated, closed by the single closing brace. -/
def scanLabelPairs : ℕ → List Char → Option (Labels × List Char)
  | 0, _ => none
  | fuel + 1, cs =>
    let nmRest := cs.span (fun c => c ≠ '=' && c ≠ '\x7d' && c ≠ ',' && c ≠ '"')
    match nmRest.2 with
    | '=' :: '"' :: rest2 =>
      match scanLabelValue (fuel + 1) rest2 with
      | none => none
      | some (v, rest3) =>
        match rest3 with
        | ',' :: rest4 =>
          match scanLabelPairs fuel rest4 with
          | none => none
          | some (ps, rest5) => some ((String.mk nmRest.1, v) :: ps, rest5)
        | '\x7d' :: rest4 => some ([(String.mk nmRest.1, v)], rest4)
        | _ => none
    | _ => none

/-- Modelled from the spec (spec.md section 6): parse one exposition data
line into its `(name, labels, value)` triple — metric name up to the label
block or the first space, an optional single brace-delimited label block,
one space, then the value token (an optional trailing timestamp follows
after another space). -/
def parseDataLine (line : String) : Option (String × Labels × String) :=
  let nmRest := line.data.span (fun c => c ≠ '\x7b' && c ≠ ' ')
  match nmRest.2 with
  | '\x7b' :: rest2 =>
    match scanLabelPairs (rest2.length + 1) rest2 with
    | none => none
    | some (ps, rest3) =>
      match rest3 with
      | ' ' :: rest4 =>
        let vRest := rest4.span (fun c => c ≠ ' ')
        if vRest.1.isEmpty then none
        else some (String.mk nmRest.1, ps, String.mk vRest.1)
      | _ => none
  | ' ' :: rest2 =>
    let vRest := rest2.span (fun c => c ≠ ' ')
    if vRest.1.isEmpty then none
    else some (String.mk nmRest.1, [], String.mk vRest.1)
  | _ => none

/-- C7 (code bug evidence): the labeled Summary quantile line template emits
a doubled closing brace — `labelStr.slice(1)` already ends with `\x7d` and
the template appends another one — so the rendered line does not parse under
the exposition line grammar at all, while the unlabeled line from the same
template parses back to its `(name, labels, value)` triple.  The sibling
Histogram template (part_007 line 226) closes the brace in the ternary's
else-branch instead and is well-formed, and the repository's own test
expects `latency\x7bquantile="0.5",service="api"\x7d 10` for this input. -/
theorem summary_labeled_quantile_line_malformed :
    renderSummaryQuantileLine "latency" [("service", "api")] "0.5" "10" =
      "latency\x7bquantile=\"0.5\",service=\"api\"\x7d\x7d 10" ∧
    parseDataLine (renderSummaryQuantileLine "latency" [("service", "api")] "0.5" "10") = none ∧
    parseDataLine (renderSummaryQuantileLine "latency" [] "0.5" "10") =
      some ("latency", [("quantile", "0.5")], "10") := by
  refine ⟨?_, ?_, ?_⟩
  · decide
  · decide
  · decide
